import Mathlib

/-!
Verification development for the plate-lookup service
(`src/services/consultaPlaca.ts`).  The TypeScript module is shallowly
embedded: pure string heuristics become Lean functions on `String`,
the HTML document is modelled by the two views the extractor reads
(the flat sequence of `td` texts and the per-table cell lists), JSON
payloads become partial maps from key to string value, and the
orchestrator's interaction with the network is modelled by an
environment that fixes each external source's outcome (`Except` for a
request that may throw).  JavaScript truthiness on optional strings is
modelled by `truthy`.
-/

namespace PlacaApi

/-- Lowercasing, character by character (JavaScript `toLowerCase`). -/
def lowerStr (s : String) : String :=
  String.mk (s.data.map Char.toLower)

/-- Strip leading and trailing whitespace from a character list. -/
def trimList (cs : List Char) : List Char :=
  ((cs.dropWhile Char.isWhitespace).reverse.dropWhile
    Char.isWhitespace).reverse

/-- JavaScript `String.trim`. -/
def trimStr (s : String) : String :=
  String.mk (trimList s.data)

/-- JavaScript `String.startsWith`. -/
def startsWithStr (s pat : String) : Bool :=
  pat.data.isPrefixOf s.data

/-- Emptiness of a string via its character list. -/
def isEmptyStr (s : String) : Bool :=
  s.data.isEmpty

/-- JavaScript truthiness of a `string | null | undefined` value:
`none` (null/undefined) and the empty string are falsy. -/
def truthy : Option String → Bool
  | none => false
  | some s => !isEmptyStr s

/-- The JavaScript expression `x || y` on optional strings. -/
def jsOr (x y : Option String) : Option String :=
  if truthy x then x else y

/-- The JavaScript pattern `x || null`: keep a truthy value, else null. -/
def toField (x : Option String) : Option String :=
  if truthy x then x else none

/-- Substring test on character lists (JavaScript `String.includes`). -/
def infixOf (pat : List Char) : List Char → Bool
  | [] => pat.isEmpty
  | c :: rest => pat.isPrefixOf (c :: rest) || infixOf pat rest

/-- String-level substring test. -/
def containsSub (s pat : String) : Bool :=
  infixOf pat.data s.data

/-- Collapse adjacent spaces into one (used after mapping every
whitespace character to a space; together they embed the JavaScript
`replace(/\s+/g, " ")`). -/
def squeezeSpaces : List Char → List Char
  | [] => []
  | [c] => [c]
  | a :: b :: rest =>
    if a = ' ' && b = ' ' then squeezeSpaces (b :: rest)
    else a :: squeezeSpaces (b :: rest)

/-- The 14 canonical vehicle fields of the `Carro` record. -/
inductive Campo where
  | marca | modelo | importado | ano | anoModelo | cor | cilindrada
  | potencia | combustivel | chassi | motor | passageiros | uf | municipio
deriving DecidableEq, Repr

/-- `Carro` (src/models/Carro.ts): 14 optional string fields.  The same
shape also serves as the scan accumulator (`Partial<Carro>`), with
`none` standing for an undefined property. -/
structure Carro where
  marca : Option String := none
  modelo : Option String := none
  importado : Option String := none
  ano : Option String := none
  anoModelo : Option String := none
  cor : Option String := none
  cilindrada : Option String := none
  potencia : Option String := none
  combustivel : Option String := none
  chassi : Option String := none
  motor : Option String := none
  passageiros : Option String := none
  uf : Option String := none
  municipio : Option String := none
deriving DecidableEq, Repr

/-- The empty accumulator `{}`. -/
def carroVazio : Carro := {}

/-- Read one field of a `Carro` by canonical field name. -/
def getCampo (c : Carro) : Campo → Option String
  | .marca => c.marca
  | .modelo => c.modelo
  | .importado => c.importado
  | .ano => c.ano
  | .anoModelo => c.anoModelo
  | .cor => c.cor
  | .cilindrada => c.cilindrada
  | .potencia => c.potencia
  | .combustivel => c.combustivel
  | .chassi => c.chassi
  | .motor => c.motor
  | .passageiros => c.passageiros
  | .uf => c.uf
  | .municipio => c.municipio

/-- Set one field of a `Carro` by canonical field name. -/
def setCampo (c : Carro) : Campo → String → Carro
  | .marca, v => { c with marca := some v }
  | .modelo, v => { c with modelo := some v }
  | .importado, v => { c with importado := some v }
  | .ano, v => { c with ano := some v }
  | .anoModelo, v => { c with anoModelo := some v }
  | .cor, v => { c with cor := some v }
  | .cilindrada, v => { c with cilindrada := some v }
  | .potencia, v => { c with potencia := some v }
  | .combustivel, v => { c with combustivel := some v }
  | .chassi, v => { c with chassi := some v }
  | .motor, v => { c with motor := some v }
  | .passageiros, v => { c with passageiros := some v }
  | .uf, v => { c with uf := some v }
  | .municipio, v => { c with municipio := some v }

/-- `LABEL_MAP`: normalized label text → canonical field. -/
def labelPairs : List (String × Campo) :=
  [("marca", .marca), ("modelo", .modelo), ("importado", .importado),
   ("ano", .ano), ("ano modelo", .anoModelo), ("ano-modelo", .anoModelo),
   ("anomodelo", .anoModelo), ("cor", .cor), ("cilindrada", .cilindrada),
   ("cilindradas", .cilindrada), ("potencia", .potencia),
   ("potência", .potencia), ("combustivel", .combustivel),
   ("combustível", .combustivel), ("chassi", .chassi), ("motor", .motor),
   ("passageiros", .passageiros), ("uf", .uf), ("estado", .uf),
   ("municipio", .municipio), ("município", .municipio),
   ("cidade", .municipio)]

/-- `LABEL_MAP[s]` — `none` models an undefined (falsy) lookup. -/
def LABEL_MAP (s : String) : Option Campo :=
  labelPairs.lookup s

/-- `LABELS_IGNORAR`: substrings marking FIPE/financial sections. -/
def LABELS_IGNORAR : List String :=
  ["valor venal", "valor", "fipe", "preço", "preco", "seguro",
   "ipva", "tabela", "referência", "referencia", "r$"]

/-- `normalizarLabel`: lowercase, drop colons, collapse whitespace runs
to a single space, trim. -/
def normalizarLabel (label : String) : String :=
  trimStr (String.mk (squeezeSpaces
    (((lowerStr label).data.filter (fun c => c ≠ ':')).map
      (fun c => if c.isWhitespace then ' ' else c))))

/-- Matcher for the tail of the financial-numeral regular expression,
`(\.\d{3})*(,\d{2})?$`. -/
def gruposNumeral : List Char → Bool
  | [] => true
  | '.' :: a :: b :: c :: rest =>
    a.isDigit && b.isDigit && c.isDigit && gruposNumeral rest
  | [',', a, b] => a.isDigit && b.isDigit
  | _ => false

/-- Matcher for the full financial-numeral regular expression
`^\d{1,3}(\.\d{3})*(,\d{2})?$`. -/
def numeralFinanceiro (s : String) : Bool :=
  let cs := s.data
  let d := cs.takeWhile Char.isDigit
  decide (1 ≤ d.length) && decide (d.length ≤ 3) &&
    gruposNumeral (cs.dropWhile Char.isDigit)

/-- `isValorFinanceiro`: the value looks like a FIPE/financial amount. -/
def isValorFinanceiro (valor : String) : Bool :=
  let v := lowerStr (trimStr valor)
  startsWithStr v "r$" || startsWithStr v "r $" || numeralFinanceiro v

/-- `isLabelIgnorado`: the normalized label contains an ignored
substring. -/
def isLabelIgnorado (label : String) : Bool :=
  LABELS_IGNORAR.any (fun ign => containsSub (normalizarLabel label) ign)

/-- The inline tier-1 value filter of `extrairDados` (line 127 of the
source): nonempty, not itself a mapped label, not financial-looking,
not in an ignored section's vocabulary. -/
def valorAceito (valor : String) : Bool :=
  !isEmptyStr valor && (LABEL_MAP (normalizarLabel valor)).isNone &&
    !isValorFinanceiro valor && !isLabelIgnorado valor

/-- Tier-1 label-adjacency scan of `extrairDados` over the flat list of
`td` texts, carrying the partial record and the sticky
`dentroDeSecaoFipe` flag.  Each list element is the raw cell text;
the scan trims it exactly where the source calls `.text().trim()`. -/
def scanTier1 : Carro → Bool → List String → Carro
  | acc, _, [] => acc
  | acc, _, [_] => acc
  | acc, flag, c1 :: c2 :: rest =>
    let rawLabel := trimStr c1
    let labelNorm := normalizarLabel rawLabel
    if isLabelIgnorado rawLabel then
      scanTier1 acc true (c2 :: rest)
    else
      match LABEL_MAP labelNorm, flag with
      | some campo, false =>
        let valor := trimStr c2
        if valorAceito valor then
          scanTier1
            (if truthy (getCampo acc campo) then acc
             else setCampo acc campo valor) flag rest
        else
          scanTier1 acc flag (c2 :: rest)
      | _, _ => scanTier1 acc flag (c2 :: rest)

/-- `buildCarro`: coerce every falsy field of the partial record to
null. -/
def buildCarro (r : Carro) : Carro :=
  { marca := toField r.marca, modelo := toField r.modelo,
    importado := toField r.importado, ano := toField r.ano,
    anoModelo := toField r.anoModelo, cor := toField r.cor,
    cilindrada := toField r.cilindrada, potencia := toField r.potencia,
    combustivel := toField r.combustivel, chassi := toField r.chassi,
    motor := toField r.motor, passageiros := toField r.passageiros,
    uf := toField r.uf, municipio := toField r.municipio }

/-- Cell read of the tier-2 loop body: `td.eq(i)` exists iff `i` is in
range, and its text is trimmed. -/
def celula (cells : List String) (i : Nat) : Option String :=
  (cells[i]?).map trimStr

/-- The `valores` array built by the tier-2 loop
(`for (let i = 1; i < 28; i += 2)`), unrolled. -/
def tier2Valores (cells : List String) : List (Option String) :=
  [celula cells 1, celula cells 3, celula cells 5, celula cells 7,
   celula cells 9, celula cells 11, celula cells 13, celula cells 15,
   celula cells 17, celula cells 19, celula cells 21, celula cells 23,
   celula cells 25, celula cells 27]

/-- The record literal returned by tier 2 from its `valores` array. -/
def carroFromValores (valores : List (Option String)) : Carro :=
  { marca := valores.getD 0 none, modelo := valores.getD 1 none,
    importado := valores.getD 2 none, ano := valores.getD 3 none,
    anoModelo := valores.getD 4 none, cor := valores.getD 5 none,
    cilindrada := valores.getD 6 none, potencia := valores.getD 7 none,
    combustivel := valores.getD 8 none, chassi := valores.getD 9 none,
    motor := valores.getD 10 none, passageiros := valores.getD 11 none,
    uf := valores.getD 12 none, municipio := valores.getD 13 none }

/-- Tier-2 positional fallback of `extrairDados`: iterate the tables in
document order; skip tables with fewer than 28 cells; accept the first
table whose `valores[0]` is truthy and not financial-looking. -/
def tier2 : List (List String) → Option Carro
  | [] => none
  | cells :: rest =>
    if cells.length < 28 then tier2 rest
    else
      let valores := tier2Valores cells
      let v0 := valores.getD 0 none
      if truthy v0 && !isValorFinanceiro (v0.getD "") then
        some (carroFromValores valores)
      else tier2 rest

/-- The two views of a parsed HTML document that `extrairDados` reads:
the texts of all `td` elements in document order, and the `td` texts of
each `table` element in document order. -/
structure HtmlDoc where
  tds : List String
  tables : List (List String)
deriving Repr

/-- `extrairDados`: tier-1 label scan; if it produced a (truthy) brand,
return the built record, else fall back to the tier-2 positional scan
over the tables. -/
def extrairDados (doc : HtmlDoc) : Option Carro :=
  let resultado := scanTier1 carroVazio false doc.tds
  if truthy resultado.marca then some (buildCarro resultado)
  else tier2 doc.tables

/-- Character class `[A-Z]` together with `[a-z]` (the regex carries
the `i` flag). -/
def letraPlaca (c : Char) : Bool :=
  ('A' ≤ c && c ≤ 'Z') || ('a' ≤ c && c ≤ 'z')

/-- Character class `[0-9]`. -/
def digitoPlaca (c : Char) : Bool :=
  '0' ≤ c && c ≤ '9'

/-- `PLACA_REGEX = /^[A-Z]{3}[0-9][A-Z0-9][0-9]{2}$/i` on a character
list. -/
def matchPlacaRegex : List Char → Bool
  | [a, b, c, d, e, f, g] =>
    letraPlaca a && letraPlaca b && letraPlaca c && digitoPlaca d &&
      (letraPlaca e || digitoPlaca e) && digitoPlaca f && digitoPlaca g
  | _ => false

/-- The cleaning step `placa.replace(/[-\s]/g, "").toUpperCase()`. -/
def limparPlaca (placa : String) : List Char :=
  (placa.data.filter (fun c => !(c = '-' || c.isWhitespace))).map
    Char.toUpper

/-- `validarPlaca`: strip separators, uppercase, test the plate
regular expression. -/
def validarPlaca (placa : String) : Bool :=
  matchPlacaRegex (limparPlaca placa)

/-- A JSON payload, seen as the source sees it: a map from a key to
the (string) value stored under it, `none` for an absent key. -/
def Payload := String → Option String

/-- `consultarGateway`: the wdapi2 request's outcome is either a
thrown transport error (caught, yielding null) or a response with a
status and an optional JSON body; a record is built only for status
200 with a truthy `MARCA` (the optional chaining `response.data?.MARCA`
is falsy when the body is absent). -/
def consultarGateway : Except String (Nat × Option Payload) → Option Carro
  | .error _ => none
  | .ok (status, data) =>
    match data with
    | none => none
    | some json =>
      if status = 200 && truthy (json "MARCA") then
        some { marca := toField (json "MARCA"),
               modelo := toField (json "MODELO"),
               importado := toField (json "importado"),
               ano := toField (json "ano"),
               anoModelo := toField (json "anoModelo"),
               cor := toField (json "cor"),
               cilindrada := toField (json "cilindradas"),
               potencia := toField (json "potencia"),
               combustivel := toField (json "combustivel"),
               chassi := toField (json "chassi"),
               motor := toField (json "motor"),
               passageiros := toField (json "passageiros"),
               uf := toField (json "uf"),
               municipio := toField (json "municipio") }
      else none

/-- `consultarApiPlacas`: no status check; the body must be truthy and
expose a truthy `marca` or `MARCA`; synonym keys are probed with `||`
in the source's order. -/
def consultarApiPlacas : Except String (Option Payload) → Option Carro
  | .error _ => none
  | .ok data =>
    match data with
    | none => none
    | some json =>
      if truthy (jsOr (json "marca") (json "MARCA")) then
        some { marca := toField (jsOr (json "marca") (json "MARCA")),
               modelo := toField (jsOr (json "modelo") (json "MODELO")),
               importado := toField (json "importado"),
               ano := toField (jsOr (json "ano") (json "anoFabricacao")),
               anoModelo := toField (json "anoModelo"),
               cor := toField (jsOr (json "cor") (json "COR")),
               cilindrada :=
                 toField (jsOr (json "cilindrada") (json "cilindradas")),
               potencia := toField (json "potencia"),
               combustivel := toField (json "combustivel"),
               chassi := toField (json "chassi"),
               motor := toField (json "motor"),
               passageiros := toField (json "passageiros"),
               uf := toField (jsOr (json "uf") (json "UF")),
               municipio :=
                 toField (jsOr (json "municipio") (json "MUNICIPIO")) }
      else none

/-- `consultarSiteDireto`: a thrown transport error is caught (null);
otherwise a record is extracted only for status 200 with a truthy body
(`response.data`), and an empty extraction is null. -/
def consultarSiteDireto : Except String (Nat × Option HtmlDoc) → Option Carro
  | .error _ => none
  | .ok (status, data) =>
    match data with
    | none => none
    | some doc => if status = 200 then extrairDados doc else none

/-- `consultarSiteViaProxy`: identical to the direct fetch, but a
missing `SCRAPER_API_KEY` short-circuits to null before any request. -/
def consultarSiteViaProxy (key : Option String) :
    Except String (Nat × Option HtmlDoc) → Option Carro :=
  fun outcome =>
    match key with
    | none => none
    | some _ =>
      match outcome with
      | .error _ => none
      | .ok (status, data) =>
        match data with
        | none => none
        | some doc => if status = 200 then extrairDados doc else none

/-- The behaviour of the external world for one resolution: the
outcome of each possible request.  `direto i` / `viaProxy i` are the
outcomes for the `i`-th entry of `SITES` fetched directly or through
the proxy; `scraperKey` is `process.env.SCRAPER_API_KEY`. -/
structure Env where
  gateway : Except String (Nat × Option Payload)
  apiPlacas : Except String (Option Payload)
  direto : Nat → Except String (Nat × Option HtmlDoc)
  scraperKey : Option String
  viaProxy : Nat → Except String (Nat × Option HtmlDoc)

/-- Identifier of one attempted source in the fallback chain. -/
inductive Fonte where
  | gateway
  | apiPlacas
  | direto (i : Nat)
  | viaProxy (i : Nat)
deriving DecidableEq, Repr

/-- The result a given source yields under an environment. -/
def runFonte (env : Env) : Fonte → Option Carro
  | .gateway => consultarGateway env.gateway
  | .apiPlacas => consultarApiPlacas env.apiPlacas
  | .direto i => consultarSiteDireto (env.direto i)
  | .viaProxy i => consultarSiteViaProxy env.scraperKey (env.viaProxy i)

/-- The step-3 `for (const site of SITES)` loop with an invocation
trace: stop at the first site whose direct fetch extracts a record. -/
def loopDireto (env : Env) : List Nat → Option Carro × List Fonte
  | [] => (none, [])
  | i :: rest =>
    match consultarSiteDireto (env.direto i) with
    | some r => (some r, [Fonte.direto i])
    | none =>
      let (res, tr) := loopDireto env rest
      (res, Fonte.direto i :: tr)

/-- The step-4 proxy loop with an invocation trace. -/
def loopProxy (env : Env) : List Nat → Option Carro × List Fonte
  | [] => (none, [])
  | i :: rest =>
    match consultarSiteViaProxy env.scraperKey (env.viaProxy i) with
    | some r => (some r, [Fonte.viaProxy i])
    | none =>
      let (res, tr) := loopProxy env rest
      (res, Fonte.viaProxy i :: tr)

/-- `consultarPlaca`, instrumented with the list of sources actually
invoked, in invocation order.  The control flow mirrors the source:
each strategy returns immediately on success, and step 4 runs only when
`SCRAPER_API_KEY` is set. -/
def consultarPlacaT (env : Env) : Option Carro × List Fonte :=
  match consultarGateway env.gateway with
  | some r => (some r, [Fonte.gateway])
  | none =>
    match consultarApiPlacas env.apiPlacas with
    | some r => (some r, [Fonte.gateway, Fonte.apiPlacas])
    | none =>
      let (r3, t3) := loopDireto env [0, 1, 2]
      match r3 with
      | some r => (some r, Fonte.gateway :: Fonte.apiPlacas :: t3)
      | none =>
        if env.scraperKey.isSome then
          let (r4, t4) := loopProxy env [0, 1, 2]
          (r4, Fonte.gateway :: Fonte.apiPlacas :: (t3 ++ t4))
        else (none, Fonte.gateway :: Fonte.apiPlacas :: t3)

/-- `consultarPlaca`: the resolution result alone. -/
def consultarPlaca (env : Env) : Option Carro :=
  (consultarPlacaT env).1

/-- `consultarPlaca` seen as a computation that could in principle
reject (throw): its body awaits only calls whose failures are caught
inside them, so the error channel is never used. -/
def consultarPlacaE (env : Env) : Except String (Option Carro) := do
  let r1 := consultarGateway env.gateway
  if r1.isSome then return r1
  let r2 := consultarApiPlacas env.apiPlacas
  if r2.isSome then return r2
  let r3 := (loopDireto env [0, 1, 2]).1
  if r3.isSome then return r3
  if env.scraperKey.isSome then
    return (loopProxy env [0, 1, 2]).1
  return none

/-! Spec-side definitions, written from the specification's words, for
the refinement claims that compare the code with the spec. -/

/-- The fixed source order of the specification's state machine: the
JSON gateway, the apiplacas JSON API, the three HTML sites directly,
then — only when a proxy credential is configured — the same three
sites through the proxy egress path. -/
def fontes (env : Env) : List Fonte :=
  [Fonte.gateway, Fonte.apiPlacas,
   Fonte.direto 0, Fonte.direto 1, Fonte.direto 2] ++
    (if env.scraperKey.isSome then
      [Fonte.viaProxy 0, Fonte.viaProxy 1, Fonte.viaProxy 2]
    else [])

/-- The record of the first source in the list that yields one. -/
def primeiroSucesso (env : Env) : List Fonte → Option Carro
  | [] => none
  | f :: rest =>
    match runFonte env f with
    | some r => some r
    | none => primeiroSucesso env rest

/-- The sources a short-circuiting left-to-right chain invokes: every
source up to and including the first successful one. -/
def traceEsperado (env : Env) : List Fonte → List Fonte
  | [] => []
  | f :: rest =>
    match runFonte env f with
    | some _ => [f]
    | none => f :: traceEsperado env rest

/-- Modelled from the spec (§4.2, claim C6): the Value Classifier's
currency shape, exactly as the claim enumerates it — an `r$` prefix or
the thousand-separated numeral pattern. -/
def specCurrencyShape (valor : String) : Bool :=
  let v := lowerStr (trimStr valor)
  startsWithStr v "r$" || numeralFinanceiro v

/-- Modelled from the spec (§4.2, claim C6): acceptance is the
conjunction of the four checks — nonempty after trimming, not itself a
recognizable label, not currency-shaped, and no ignored substring in
the normalized text. -/
def specAcceptable (valor : String) : Bool :=
  !isEmptyStr (trimStr valor) && (LABEL_MAP (normalizarLabel valor)).isNone &&
    !specCurrencyShape valor && !isLabelIgnorado valor

/-- The amended currency shape: the code additionally treats an
`r $` prefix (with an interior space) as financial. -/
def specCurrencyShapeAmended (valor : String) : Bool :=
  let v := lowerStr (trimStr valor)
  startsWithStr v "r$" || startsWithStr v "r $" || numeralFinanceiro v

/-- The amended value-check formula: the four checks with the amended
currency shape. -/
def specAcceptableAmended (valor : String) : Bool :=
  !isEmptyStr (trimStr valor) && (LABEL_MAP (normalizarLabel valor)).isNone &&
    !specCurrencyShapeAmended valor && !isLabelIgnorado valor

/-- Modelled from the spec (§4.3 tier 2, claim C7): the fourteen
canonical fields read positionally from a table's cells at the odd
indices 1, 3, …, 27, in the fixed field order. -/
def tier2SpecRecord (cells : List String) : Carro :=
  { marca := (cells[1]?).map trimStr,
    modelo := (cells[3]?).map trimStr,
    importado := (cells[5]?).map trimStr,
    ano := (cells[7]?).map trimStr,
    anoModelo := (cells[9]?).map trimStr,
    cor := (cells[11]?).map trimStr,
    cilindrada := (cells[13]?).map trimStr,
    potencia := (cells[15]?).map trimStr,
    combustivel := (cells[17]?).map trimStr,
    chassi := (cells[19]?).map trimStr,
    motor := (cells[21]?).map trimStr,
    passageiros := (cells[23]?).map trimStr,
    uf := (cells[25]?).map trimStr,
    municipio := (cells[27]?).map trimStr }

/-- Modelled from the spec (claim C7): a candidate table is rejected
when its brand slot is absent, trims to the empty string, or is
currency-shaped. -/
def tabelaRejeitada (cells : List String) : Bool :=
  match (cells[1]?).map trimStr with
  | none => true
  | some b => isEmptyStr b || isValorFinanceiro b

/-- Modelled from the spec (§4.3 tier 2, claim C7): scan the tables in
order, skip those with fewer than 28 cells, reject those whose brand
slot is empty or currency-shaped, and return the positional record of
the first surviving table. -/
def tier2Spec : List (List String) → Option Carro
  | [] => none
  | cells :: rest =>
    if cells.length < 28 then tier2Spec rest
    else if tabelaRejeitada cells then tier2Spec rest
    else some (tier2SpecRecord cells)

/-- Modelled from the spec (§6, claim C9): the legacy plate shape —
3 letters then 4 digits, case-insensitively. -/
def placaLegada : List Char → Bool
  | [a, b, c, d, e, f, g] =>
    letraPlaca a && letraPlaca b && letraPlaca c &&
      digitoPlaca d && digitoPlaca e && digitoPlaca f && digitoPlaca g
  | _ => false

/-- Modelled from the spec (§6, claim C9): the current plate shape —
3 letters, 1 digit, 1 alphanumeric, 2 digits, case-insensitively. -/
def placaAtual : List Char → Bool
  | [a, b, c, d, e, f, g] =>
    letraPlaca a && letraPlaca b && letraPlaca c && digitoPlaca d &&
      (letraPlaca e || digitoPlaca e) && digitoPlaca f && digitoPlaca g
  | _ => false

/-! Concrete fixtures used to exercise the theorems on closed inputs. -/

/-- A JSON body with no keys at all. -/
def payloadVazio : Payload := fun _ => none

/-- A JSON body carrying only an uppercase brand key. -/
def payloadFiat : Payload :=
  fun k => if k = "MARCA" then some "FIAT" else none

/-- An environment whose gateway answers at once; everything else
fails, and no proxy credential is configured. -/
def envGatewayOk : Env :=
  { gateway := Except.ok (200, some payloadFiat),
    apiPlacas := Except.error "falha",
    direto := fun _ => Except.error "falha",
    scraperKey := none,
    viaProxy := fun _ => Except.error "falha" }

/-- An environment where every request throws and no proxy credential
is configured. -/
def envTodasFalham : Env :=
  { gateway := Except.error "falha",
    apiPlacas := Except.error "falha",
    direto := fun _ => Except.error "falha",
    scraperKey := none,
    viaProxy := fun _ => Except.error "falha" }

/-- A 28-cell table whose brand slot (cell 1) reads FIAT. -/
def tabelaFiat : List String :=
  "z" :: "FIAT" :: List.replicate 26 "z"

/-- A 28-cell table with a good brand slot but an empty cell in the
model slot (cell 3). -/
def tabelaComCelulaVazia : List String :=
  "z" :: "RENAULT" :: "z" :: "" :: List.replicate 24 "z"

/-- A document whose only cells form one label/value pair. -/
def docRenault : HtmlDoc := ⟨["Marca", "RENAULT"], []⟩

/-- The record `docRenault` extracts: a brand and nothing else. -/
def carroRenault : Carro := { marca := some "RENAULT" }

/-- A field value as the extractor may store it: absent, or the trim of
some raw source text, non-empty when required by the tier-1 filter. -/
def campoTrimOk (o : Option String) : Prop :=
  o = none ∨ ∃ raw, o = some (trimStr raw) ∧ isEmptyStr (trimStr raw) = false

/-- A field value as tier 2 may store it: absent or the trim of some raw
cell text (possibly empty). -/
def campoTrimFraco (o : Option String) : Prop :=
  o = none ∨ ∃ raw, o = some (trimStr raw)

/-! Helper lemmas. -/

theorem scanTier1_ignored (acc : Carro) (flag : Bool) (c1 c2 : String)
    (rest : List String) (h : isLabelIgnorado (trimStr c1) = true) :
    scanTier1 acc flag (c1 :: c2 :: rest) = scanTier1 acc true (c2 :: rest) := by
  cases hm : LABEL_MAP (normalizarLabel (trimStr c1)) with
  | some campo =>
    cases flag with
    | false => rw [scanTier1.eq_3 acc c1 c2 rest campo hm, if_pos h]
    | true =>
      rw [scanTier1.eq_4 acc c1 c2 rest true
        (fun _ _ hf => Bool.noConfusion hf), if_pos h]
  | none =>
    rw [scanTier1.eq_4 acc c1 c2 rest flag
      (fun campo hc => by rw [hm] at hc; exact Option.noConfusion hc), if_pos h]

theorem scanTier1_store (acc : Carro) (c1 c2 : String) (rest : List String)
    (campo : Campo) (h : isLabelIgnorado (trimStr c1) = false)
    (hm : LABEL_MAP (normalizarLabel (trimStr c1)) = some campo)
    (hv : valorAceito (trimStr c2) = true) :
    scanTier1 acc false (c1 :: c2 :: rest) =
      scanTier1
        (if truthy (getCampo acc campo) = true then acc
         else setCampo acc campo (trimStr c2)) false rest := by
  rw [scanTier1.eq_3 acc c1 c2 rest campo hm]
  simp only [h, Bool.false_eq_true, if_false, hv, if_true]

theorem scanTier1_reject (acc : Carro) (c1 c2 : String) (rest : List String)
    (campo : Campo) (h : isLabelIgnorado (trimStr c1) = false)
    (hm : LABEL_MAP (normalizarLabel (trimStr c1)) = some campo)
    (hv : valorAceito (trimStr c2) = false) :
    scanTier1 acc false (c1 :: c2 :: rest) = scanTier1 acc false (c2 :: rest) := by
  rw [scanTier1.eq_3 acc c1 c2 rest campo hm]
  simp only [h, Bool.false_eq_true, if_false, hv]

theorem scanTier1_skip (acc : Carro) (flag : Bool) (c1 c2 : String)
    (rest : List String) (h : isLabelIgnorado (trimStr c1) = false)
    (hn : ∀ campo, LABEL_MAP (normalizarLabel (trimStr c1)) = some campo →
      flag = false → False) :
    scanTier1 acc flag (c1 :: c2 :: rest) = scanTier1 acc flag (c2 :: rest) := by
  rw [scanTier1.eq_4 acc c1 c2 rest flag hn]
  simp only [h, Bool.false_eq_true, if_false]

theorem scanTier1_flagTrue (tds : List String) :
    ∀ acc, scanTier1 acc true tds = acc := by
  induction tds with
  | nil => intro acc; rfl
  | cons c1 rest ih =>
    intro acc
    cases rest with
    | nil => rfl
    | cons c2 rest' =>
      rw [scanTier1]
      split
      · exact ih acc
      · exact ih acc
      · intro campo _ h
        exact Bool.noConfusion h

theorem getCampo_setCampo (c : Carro) (x y : Campo) (v : String) :
    getCampo (setCampo c x v) y = if x = y then some v else getCampo c y := by
  cases x <;> cases y <;> simp [getCampo, setCampo]

theorem getCampo_buildCarro (r : Carro) (campo : Campo) :
    getCampo (buildCarro r) campo = toField (getCampo r campo) := by
  cases campo <;> rfl

/-- Once a field holds a truthy value, the rest of the scan never
changes it. -/
theorem scanTier1_persist (acc : Carro) (flag : Bool) (tds : List String)
    (campo : Campo) :
    truthy (getCampo acc campo) = true →
      getCampo (scanTier1 acc flag tds) campo = getCampo acc campo := by
  induction acc, flag, tds using scanTier1.induct with
  | case1 acc flag => intro _; rfl
  | case2 acc flag c => intro _; rfl
  | case3 acc flag c1 c2 rest rawLabel hig ih =>
    intro h
    rw [scanTier1_ignored acc flag c1 c2 rest hig]
    exact ih h
  | case4 acc c1 c2 rest rawLabel labelNorm hig campo' hmap valor hval ih =>
    intro h
    have hig' : isLabelIgnorado (trimStr c1) = false := by
      simpa using hig
    rw [scanTier1_store acc c1 c2 rest campo' hig' hmap hval]
    by_cases ht : truthy (getCampo acc campo') = true
    · rw [if_pos ht]
      rw [if_pos ht] at ih
      exact ih h
    · rw [if_neg ht]
      rw [if_neg ht] at ih
      have hc : campo' ≠ campo := by
        intro hcc
        exact ht (hcc ▸ h)
      have hget : getCampo (setCampo acc campo' (trimStr c2)) campo =
          getCampo acc campo := by
        rw [getCampo_setCampo, if_neg hc]
      rw [ih (by rw [hget]; exact h), hget]
  | case5 acc c1 c2 rest rawLabel labelNorm hig campo' hmap valor hval ih =>
    intro h
    have hig' : isLabelIgnorado (trimStr c1) = false := by
      simpa using hig
    have hval' : valorAceito (trimStr c2) = false := by
      simpa using hval
    rw [scanTier1_reject acc c1 c2 rest campo' hig' hmap hval']
    exact ih h
  | case6 acc flag c1 c2 rest rawLabel labelNorm hig hn ih =>
    intro h
    have hig' : isLabelIgnorado (trimStr c1) = false := by
      simpa using hig
    rw [scanTier1_skip acc flag c1 c2 rest hig' hn]
    exact ih h

/-- Every field the tier-1 scan stores is the trim of a cell text and
non-empty; fields already satisfying the shape keep it. -/
theorem scanTier1_inv (acc : Carro) (flag : Bool) (tds : List String)
    (campo : Campo) :
    campoTrimOk (getCampo acc campo) →
      campoTrimOk (getCampo (scanTier1 acc flag tds) campo) := by
  induction acc, flag, tds using scanTier1.induct with
  | case1 acc flag => exact id
  | case2 acc flag c => exact id
  | case3 acc flag c1 c2 rest rawLabel hig ih =>
    intro h
    rw [scanTier1_ignored acc flag c1 c2 rest hig]
    exact ih h
  | case4 acc c1 c2 rest rawLabel labelNorm hig campo' hmap valor hval ih =>
    intro h
    have hig' : isLabelIgnorado (trimStr c1) = false := by
      simpa using hig
    rw [scanTier1_store acc c1 c2 rest campo' hig' hmap hval]
    by_cases ht : truthy (getCampo acc campo') = true
    · rw [if_pos ht]
      rw [if_pos ht] at ih
      exact ih h
    · rw [if_neg ht]
      rw [if_neg ht] at ih
      refine ih ?_
      rw [getCampo_setCampo]
      by_cases hc : campo' = campo
      · rw [if_pos hc]
        refine Or.inr ⟨c2, rfl, ?_⟩
        have hv2 := hval
        simp only [valorAceito, Bool.and_eq_true, Bool.not_eq_true'] at hv2
        exact hv2.1.1.1
      · rw [if_neg hc]
        exact h
  | case5 acc c1 c2 rest rawLabel labelNorm hig campo' hmap valor hval ih =>
    intro h
    have hig' : isLabelIgnorado (trimStr c1) = false := by
      simpa using hig
    have hval' : valorAceito (trimStr c2) = false := by
      simpa using hval
    rw [scanTier1_reject acc c1 c2 rest campo' hig' hmap hval']
    exact ih h
  | case6 acc flag c1 c2 rest rawLabel labelNorm hig hn ih =>
    intro h
    have hig' : isLabelIgnorado (trimStr c1) = false := by
      simpa using hig
    rw [scanTier1_skip acc flag c1 c2 rest hig' hn]
    exact ih h

theorem map_trim_fraco (e : Option String) : campoTrimFraco (e.map trimStr) := by
  cases e with
  | none => exact Or.inl rfl
  | some raw => exact Or.inr ⟨raw, rfl⟩

/-- A successful tier-2 extraction comes from some table's positional
record and has a truthy brand. -/
theorem tier2_some (tables : List (List String)) (carro : Carro)
    (h : tier2 tables = some carro) :
    truthy carro.marca = true ∧
      ∃ cells, carro = carroFromValores (tier2Valores cells) := by
  induction tables with
  | nil => exact absurd h (by rw [tier2]; exact Option.noConfusion)
  | cons cells rest ih =>
    rw [tier2] at h
    dsimp only at h
    split at h
    · exact ih h
    · split at h
      · rename_i hcond
        obtain ⟨h1, _⟩ := Bool.and_eq_true_iff.mp hcond
        refine ⟨?_, cells, (Option.some.inj h).symm⟩
        rw [← Option.some.inj h]
        exact h1
      · exact ih h

theorem loopDireto_spec (env : Env) (is : List Nat) :
    loopDireto env is =
      (primeiroSucesso env (is.map Fonte.direto),
       traceEsperado env (is.map Fonte.direto)) := by
  induction is with
  | nil => rfl
  | cons i rest ih =>
    rw [loopDireto]
    cases h : consultarSiteDireto (env.direto i) with
    | some r =>
      simp only [List.map_cons, primeiroSucesso, traceEsperado, runFonte, h]
    | none =>
      simp only [List.map_cons, primeiroSucesso, traceEsperado, runFonte, h, ih]

theorem loopProxy_spec (env : Env) (is : List Nat) :
    loopProxy env is =
      (primeiroSucesso env (is.map Fonte.viaProxy),
       traceEsperado env (is.map Fonte.viaProxy)) := by
  induction is with
  | nil => rfl
  | cons i rest ih =>
    rw [loopProxy]
    cases h : consultarSiteViaProxy env.scraperKey (env.viaProxy i) with
    | some r =>
      simp only [List.map_cons, primeiroSucesso, traceEsperado, runFonte, h]
    | none =>
      simp only [List.map_cons, primeiroSucesso, traceEsperado, runFonte, h, ih]

theorem primeiroSucesso_append (env : Env) (l1 l2 : List Fonte) :
    primeiroSucesso env (l1 ++ l2) =
      (match primeiroSucesso env l1 with
       | some r => some r
       | none => primeiroSucesso env l2) := by
  induction l1 with
  | nil => rfl
  | cons f rest ih =>
    rw [List.cons_append, primeiroSucesso, primeiroSucesso]
    cases h : runFonte env f with
    | some r => rfl
    | none => exact ih

theorem traceEsperado_append (env : Env) (l1 l2 : List Fonte) :
    traceEsperado env (l1 ++ l2) =
      (match primeiroSucesso env l1 with
       | some _ => traceEsperado env l1
       | none => traceEsperado env l1 ++ traceEsperado env l2) := by
  induction l1 with
  | nil => rfl
  | cons f rest ih =>
    rw [List.cons_append, traceEsperado, traceEsperado, primeiroSucesso]
    cases h : runFonte env f with
    | some r => rfl
    | none =>
      rw [ih]
      cases primeiroSucesso env rest <;> rfl

theorem traceEsperado_mem (env : Env) (l : List Fonte) (f : Fonte)
    (h : f ∈ traceEsperado env l) : f ∈ l := by
  induction l with
  | nil => exact absurd h (by rw [traceEsperado]; exact List.not_mem_nil f)
  | cons g rest ih =>
    rw [traceEsperado] at h
    revert h
    cases hr : runFonte env g with
    | some r =>
      intro h
      rw [List.mem_singleton.mp h]
      exact List.mem_cons_self g rest
    | none =>
      intro h
      cases List.mem_cons.mp h with
      | inl he => exact he ▸ List.mem_cons_self g rest
      | inr ht => exact List.mem_cons_of_mem g (ih ht)

theorem traceEsperado_dropLast (env : Env) (l : List Fonte) :
    ∀ f ∈ (traceEsperado env l).dropLast, runFonte env f = none := by
  induction l with
  | nil => intro f hf; exact absurd hf (by rw [traceEsperado]; simp)
  | cons g rest ih =>
    intro f hf
    rw [traceEsperado] at hf
    revert hf
    cases hr : runFonte env g with
    | some r =>
      intro hf
      exact absurd hf (by simp)
    | none =>
      intro hf
      cases htr : traceEsperado env rest with
      | nil =>
        rw [htr] at hf
        exact absurd hf (by simp)
      | cons t ts =>
        rw [htr, List.dropLast_cons₂] at hf
        cases List.mem_cons.mp hf with
        | inl he => exact he ▸ hr
        | inr ht => exact ih f (htr ▸ ht)

theorem primeiroSucesso_none (env : Env) (l : List Fonte)
    (h : ∀ f ∈ l, runFonte env f = none) : primeiroSucesso env l = none := by
  induction l with
  | nil => rfl
  | cons f rest ih =>
    rw [primeiroSucesso, h f (List.mem_cons_self f rest)]
    exact ih (fun g hg => h g (List.mem_cons_of_mem f hg))

/-- The orchestrator is the left-to-right short-circuiting run of the
fixed source list: the result is the first success, and exactly the
sources up to it are invoked. -/
theorem consultarPlacaT_run (env : Env) :
    consultarPlacaT env =
      (primeiroSucesso env (fontes env), traceEsperado env (fontes env)) := by
  rw [consultarPlacaT]
  cases hg : consultarGateway env.gateway with
  | some r =>
    simp only [fontes, List.cons_append, List.nil_append, primeiroSucesso,
      traceEsperado, runFonte, hg]
  | none =>
    cases ha : consultarApiPlacas env.apiPlacas with
    | some r =>
      simp only [fontes, List.cons_append, List.nil_append, primeiroSucesso,
        traceEsperado, runFonte, hg, ha]
    | none =>
      rw [loopDireto_spec]
      simp only []
      have hfx : fontes env =
          Fonte.gateway :: Fonte.apiPlacas ::
            (([0, 1, 2].map Fonte.direto) ++
              (if env.scraperKey.isSome then [0, 1, 2].map Fonte.viaProxy
               else [])) := by
        cases hk : env.scraperKey <;> simp [fontes, hk]
      rw [hfx]
      rw [primeiroSucesso, runFonte, hg, primeiroSucesso, runFonte, ha,
        traceEsperado, runFonte, hg, traceEsperado, runFonte, ha]
      rw [primeiroSucesso_append, traceEsperado_append]
      cases h3 : primeiroSucesso env ([0, 1, 2].map Fonte.direto) with
      | some r =>
        simp only []
      | none =>
        cases hk : env.scraperKey with
        | none =>
          simp only [hk, Option.isSome_none, Bool.false_eq_true, if_false,
            primeiroSucesso, traceEsperado, List.append_nil]
        | some k =>
          simp only [hk, Option.isSome_some, if_true]
          rw [loopProxy_spec]

theorem carroFromValores_spec (cells : List String) :
    carroFromValores (tier2Valores cells) = tier2SpecRecord cells := rfl

theorem tier2_eq (tables : List (List String)) :
    tier2 tables = tier2Spec tables := by
  induction tables with
  | nil => rfl
  | cons cells rest ih =>
    rw [tier2, tier2Spec]
    by_cases h28 : cells.length < 28
    · rw [if_pos h28, if_pos h28, ih]
    · rw [if_neg h28, if_neg h28]
      dsimp only
      have h1 : (1 : Nat) < cells.length := by omega
      obtain ⟨c, hc⟩ : ∃ c, cells[1]? = some c :=
        ⟨cells[1], List.getElem?_eq_getElem h1⟩
      simp only [tier2Valores, List.getD_cons_zero, celula, hc,
        Option.map_some', Option.getD_some, tabelaRejeitada, truthy]
      by_cases he : isEmptyStr (trimStr c) <;>
        by_cases hf : isValorFinanceiro (trimStr c) <;>
          simp [he, hf, ih, carroFromValores, tier2SpecRecord, celula, hc]

theorem matchPlaca_or (cs : List Char) :
    (placaLegada cs || placaAtual cs) = matchPlacaRegex cs := by
  rcases cs with _ | ⟨a, _ | ⟨b, _ | ⟨c, _ | ⟨d, _ | ⟨e, _ | ⟨f, _ | ⟨g, _ | ⟨h, t⟩⟩⟩⟩⟩⟩⟩⟩ <;>
    first
      | rfl
      | (simp only [placaLegada, placaAtual, matchPlacaRegex]
         generalize letraPlaca a = A
         generalize letraPlaca b = B
         generalize letraPlaca c = C
         generalize digitoPlaca d = D
         generalize letraPlaca e = E1
         generalize digitoPlaca e = E2
         generalize digitoPlaca f = F
         generalize digitoPlaca g = G
         revert A B C D E1 E2 F G
         decide)

theorem consultarPlacaE_ok (env : Env) :
    consultarPlacaE env = Except.ok (consultarPlaca env) := by
  rw [consultarPlacaE, consultarPlaca, consultarPlacaT]
  cases consultarGateway env.gateway with
  | some r => rfl
  | none =>
    cases consultarApiPlacas env.apiPlacas with
    | some r => rfl
    | none =>
      rcases hl : loopDireto env [0, 1, 2] with ⟨r3, t3⟩
      cases r3 with
      | some r => rfl
      | none =>
        cases hk : env.scraperKey with
        | none => rfl
        | some k =>
          rcases hp : loopProxy env [0, 1, 2] with ⟨r4, t4⟩
          rfl

/-! The claims. -/

/-- C1: for every plate-resolution environment the orchestrator runs
the sources in the fixed order — gateway, apiplacas, the three sites
directly, then (only with a configured proxy credential) the three
sites via proxy — returning the first record any source yields; the
invocation trace stops at the successful source (every invoked source
but the last failed), and with no credential no proxy source is ever
invoked. -/
theorem consultarPlaca_ordem_curto_circuito (env : Env) :
    consultarPlacaT env =
      (primeiroSucesso env (fontes env), traceEsperado env (fontes env)) ∧
    (∀ f ∈ (consultarPlacaT env).2.dropLast, runFonte env f = none) ∧
    (env.scraperKey = none → ∀ i, Fonte.viaProxy i ∉ (consultarPlacaT env).2) := by
  refine ⟨consultarPlacaT_run env, ?_, ?_⟩
  · rw [consultarPlacaT_run]
    exact traceEsperado_dropLast env (fontes env)
  · intro hk i hmem
    rw [consultarPlacaT_run] at hmem
    have hm := traceEsperado_mem env (fontes env) _ hmem
    rw [fontes, hk] at hm
    simp at hm

theorem consultarPlaca_ordem_curto_circuito_ok :
    (∀ i, Fonte.viaProxy i ∉ (consultarPlacaT envGatewayOk).2) ∧
    (consultarPlacaT envGatewayOk).2 = [Fonte.gateway] :=
  ⟨(consultarPlaca_ordem_curto_circuito envGatewayOk).2.2 rfl, by decide⟩

/-- C2: resolution never propagates a per-source failure: the chain is
a computation whose error channel is never used, a thrown request at
any single source is swallowed to null at that step (the chain then
proceeding to the next source), and when every source fails the result
is null. -/
theorem consultarPlaca_isola_falhas (env : Env) :
    consultarPlacaE env = Except.ok (consultarPlaca env) ∧
    ((∀ f ∈ fontes env, runFonte env f = none) → consultarPlaca env = none) ∧
    (∀ e, consultarGateway (Except.error e) = none) ∧
    (∀ e, consultarApiPlacas (Except.error e) = none) ∧
    (∀ e, consultarSiteDireto (Except.error e) = none) ∧
    (∀ e key, consultarSiteViaProxy key (Except.error e) = none) ∧
    (∀ e, env.gateway = Except.error e →
      Fonte.apiPlacas ∈ (consultarPlacaT env).2) := by
  refine ⟨consultarPlacaE_ok env, ?_, fun e => rfl, fun e => rfl,
    fun e => rfl, fun e key => ?_, ?_⟩
  · intro hall
    rw [consultarPlaca, consultarPlacaT_run]
    exact primeiroSucesso_none env (fontes env) hall
  · cases key <;> rfl
  · intro e he
    rw [consultarPlacaT_run]
    have hg : runFonte env Fonte.gateway = none := by
      show consultarGateway env.gateway = none
      rw [he]
      rfl
    obtain ⟨resto, hr⟩ : ∃ resto,
        fontes env = Fonte.gateway :: Fonte.apiPlacas :: resto := by
      cases env.scraperKey
      · exact ⟨_, rfl⟩
      · exact ⟨_, rfl⟩
    rw [hr]
    simp only [traceEsperado, hg]
    cases ha : runFonte env Fonte.apiPlacas <;> simp [ha]

theorem consultarPlaca_isola_falhas_ok :
    (∀ f ∈ fontes envTodasFalham, runFonte envTodasFalham f = none) ∧
    consultarPlaca envTodasFalham = none ∧
    Fonte.apiPlacas ∈ (consultarPlacaT envTodasFalham).2 := by
  have h := consultarPlaca_isola_falhas envTodasFalham
  exact ⟨by decide, h.2.1 (by decide), h.2.2.2.2.2.2 "falha" rfl⟩

/-- C3: once a scanned cell's label matches the ignored-label set, the
tier-1 scan populates no field from any later cell pair: from any scan
state the remainder of the scan returns the accumulator unchanged, and
with the flag already set the whole scan is the identity. -/
theorem scanTier1_secao_ignorada_pegajosa (acc : Carro) (flag : Bool)
    (l : String) (resto tds : List String)
    (h : isLabelIgnorado (trimStr l) = true) :
    scanTier1 acc flag (l :: resto) = acc ∧ scanTier1 acc true tds = acc := by
  refine ⟨?_, scanTier1_flagTrue tds acc⟩
  cases resto with
  | nil => rfl
  | cons c2 resto2 =>
    rw [scanTier1_ignored acc flag l c2 resto2 h]
    exact scanTier1_flagTrue (c2 :: resto2) acc

theorem scanTier1_secao_ignorada_pegajosa_ok :
    isLabelIgnorado (trimStr "Valor FIPE") = true ∧
    (scanTier1 carroVazio false
        ("Valor FIPE" :: ["R$ 50.000", "Modelo", "LOGAN"]) = carroVazio ∧
     scanTier1 carroVazio true ["Marca", "RENAULT"] = carroVazio) :=
  ⟨by decide,
   scanTier1_secao_ignorada_pegajosa carroVazio false "Valor FIPE"
     ["R$ 50.000", "Modelo", "LOGAN"] ["Marca", "RENAULT"] (by decide)⟩

/-- C4 fails as stated: on this document tier 1 finds no brand and
tier 2 returns a record whose model field holds the empty string, so
the empty string can be stored in a field. -/
theorem extrairDados_string_vazia_contraexemplo :
    (extrairDados ⟨tabelaComCelulaVazia, [tabelaComCelulaVazia]⟩).map
      (fun c => c.modelo) = some (some "") := by decide

/-- C4 amended: every field of a record returned by the extractor is
absent or the trim of some source text and the brand is always truthy;
on the tier-1 path every present field is additionally non-empty —
but a tier-2 record may store the empty string in a non-brand slot. -/
theorem extrairDados_campos_aparados (doc : HtmlDoc) (carro : Carro)
    (h : extrairDados doc = some carro) :
    truthy carro.marca = true ∧
    (∀ campo, campoTrimFraco (getCampo carro campo)) ∧
    (truthy (scanTier1 carroVazio false doc.tds).marca = true →
      ∀ campo, campoTrimOk (getCampo carro campo)) := by
  rw [extrairDados] at h
  by_cases hm : truthy (scanTier1 carroVazio false doc.tds).marca = true
  · rw [if_pos hm] at h
    injection h with h2
    subst h2
    have hstrong : ∀ campo,
        campoTrimOk (getCampo
          (buildCarro (scanTier1 carroVazio false doc.tds)) campo) := by
      intro campo
      have hinv := scanTier1_inv carroVazio false doc.tds campo
        (Or.inl (by cases campo <;> rfl))
      rw [getCampo_buildCarro]
      rcases hinv with hnone | ⟨raw, hsome, hne⟩
      · rw [hnone]
        exact Or.inl rfl
      · rw [hsome]
        have htr : truthy (some (trimStr raw)) = true := by
          simp [truthy, hne]
        rw [toField, if_pos htr]
        exact Or.inr ⟨raw, rfl, hne⟩
    refine ⟨?_, ?_, fun _ campo => hstrong campo⟩
    · show truthy (toField (scanTier1 carroVazio false doc.tds).marca) = true
      rw [toField, if_pos hm]
      exact hm
    · intro campo
      rcases hstrong campo with hnone | ⟨raw, hsome, _⟩
      · exact Or.inl hnone
      · exact Or.inr ⟨raw, hsome⟩
  · rw [if_neg hm] at h
    obtain ⟨hmarca, cells, rfl⟩ := tier2_some doc.tables carro h
    refine ⟨hmarca, ?_, fun hcontra => absurd hcontra hm⟩
    intro campo
    cases campo <;> exact map_trim_fraco _

theorem extrairDados_campos_aparados_ok :
    extrairDados docRenault = some carroRenault ∧
    (truthy carroRenault.marca = true ∧
     (∀ campo, campoTrimFraco (getCampo carroRenault campo)) ∧
     (truthy (scanTier1 carroVazio false docRenault.tds).marca = true →
       ∀ campo, campoTrimOk (getCampo carroRenault campo))) :=
  ⟨by decide, extrairDados_campos_aparados docRenault carroRenault (by decide)⟩

/-- C5: if tier 1 resolves a (truthy) brand, extraction returns the
built tier-1 record and does not depend on the document's tables at
all — tier 2 is never consulted. -/
theorem extrairDados_precedencia_tier1 (tds : List String)
    (tables tables2 : List (List String))
    (h : truthy (scanTier1 carroVazio false tds).marca = true) :
    extrairDados ⟨tds, tables⟩ =
      some (buildCarro (scanTier1 carroVazio false tds)) ∧
    extrairDados ⟨tds, tables⟩ = extrairDados ⟨tds, tables2⟩ := by
  constructor <;> simp [extrairDados, h]

theorem extrairDados_precedencia_tier1_ok :
    truthy (scanTier1 carroVazio false ["Marca", "RENAULT"]).marca = true ∧
    (extrairDados ⟨["Marca", "RENAULT"], [tabelaFiat]⟩ =
        some (buildCarro (scanTier1 carroVazio false ["Marca", "RENAULT"])) ∧
     extrairDados ⟨["Marca", "RENAULT"], [tabelaFiat]⟩ =
        extrairDados ⟨["Marca", "RENAULT"], []⟩) :=
  ⟨by decide,
   extrairDados_precedencia_tier1 ["Marca", "RENAULT"] [tabelaFiat] []
     (by decide)⟩

/-- C6 fails as stated: the code also rejects an `r $` prefix (with an
interior space), which the claim's enumerated currency shape does not
cover — at the value `R $ 1` the claim's four-check formula accepts
while the tier-1 value check rejects. -/
theorem valorAceito_contraexemplo :
    specAcceptable "R $ 1" = true ∧ valorAceito "R $ 1" = false := by decide

/-- C6 amended: for a trimmed candidate the tier-1 value check is
exactly the four-check conjunction once the currency shape also covers
the `r $` prefix; the four sample values behave as the claim states. -/
theorem valorAceito_quatro_checagens (v : String) (h : trimStr v = v) :
    valorAceito v = specAcceptableAmended v ∧
    valorAceito "R$ 45.000,00" = false ∧ valorAceito "45.000,00" = false ∧
    valorAceito "RENAULT" = true ∧ valorAceito "2020" = true := by
  refine ⟨?_, by decide, by decide, by decide, by decide⟩
  rw [valorAceito, specAcceptableAmended, h]
  rfl

theorem valorAceito_quatro_checagens_ok :
    trimStr "RENAULT" = "RENAULT" ∧
    (valorAceito "RENAULT" = specAcceptableAmended "RENAULT" ∧
     valorAceito "R$ 45.000,00" = false ∧ valorAceito "45.000,00" = false ∧
     valorAceito "RENAULT" = true ∧ valorAceito "2020" = true) :=
  ⟨by decide, valorAceito_quatro_checagens "RENAULT" (by decide)⟩

/-- C7: when tier 1 yields no brand the extractor runs the tier-2
positional scan over the tables, and that scan equals its
specification: skip tables with fewer than 28 cells, read the fourteen
fields from the odd cells 1, 3, …, 27 of the first table whose brand
slot is non-empty and not currency-shaped (only the brand slot is
checked), else keep scanning, else none. -/
theorem tier2_posicional (tables : List (List String)) (doc : HtmlDoc)
    (h : truthy (scanTier1 carroVazio false doc.tds).marca = false) :
    extrairDados doc = tier2 doc.tables ∧ tier2 tables = tier2Spec tables := by
  refine ⟨?_, tier2_eq tables⟩
  simp [extrairDados, h]

theorem tier2_posicional_ok :
    truthy (scanTier1 carroVazio false ([] : List String)).marca = false ∧
    (extrairDados ⟨[], [["x"], tabelaFiat]⟩ = tier2 [["x"], tabelaFiat] ∧
     tier2 [["x"], tabelaFiat] = tier2Spec [["x"], tabelaFiat]) :=
  ⟨by decide,
   tier2_posicional [["x"], tabelaFiat] ⟨[], [["x"], tabelaFiat]⟩ (by decide)⟩

/-- C8: first-writer-wins in the tier-1 scan: with two non-ignored
pairs for the same field, both values accepted, the field holds the
first pair's trimmed value (the scan consumes the first value cell and
continues after it), and a field once truthy is never overwritten for
the remainder of any scan. -/
theorem scanTier1_primeiro_escritor_vence (acc : Carro)
    (l1 v1 l2 v2 : String) (resto : List String) (campo : Campo)
    (h1 : isLabelIgnorado (trimStr l1) = false)
    (h2 : isLabelIgnorado (trimStr l2) = false)
    (hm1 : LABEL_MAP (normalizarLabel (trimStr l1)) = some campo)
    (hm2 : LABEL_MAP (normalizarLabel (trimStr l2)) = some campo)
    (hv1 : valorAceito (trimStr v1) = true)
    (hv2 : valorAceito (trimStr v2) = true)
    (hvazio : truthy (getCampo acc campo) = false) :
    getCampo (scanTier1 acc false (l1 :: v1 :: l2 :: v2 :: resto)) campo =
      some (trimStr v1) ∧
    (∀ (c : Carro) (flag : Bool) (tds : List String),
      truthy (getCampo c campo) = true →
      getCampo (scanTier1 c flag tds) campo = getCampo c campo) := by
  have hne1 : isEmptyStr (trimStr v1) = false := by
    have hv := hv1
    simp only [valorAceito, Bool.and_eq_true, Bool.not_eq_true'] at hv
    exact hv.1.1.1
  refine ⟨?_, fun c flag tds ht => scanTier1_persist c flag tds campo ht⟩
  rw [scanTier1_store acc l1 v1 (l2 :: v2 :: resto) campo h1 hm1 hv1]
  rw [if_neg (by rw [hvazio]; exact Bool.false_ne_true)]
  have hset : getCampo (setCampo acc campo (trimStr v1)) campo =
      some (trimStr v1) := by
    rw [getCampo_setCampo, if_pos rfl]
  have htr : truthy (getCampo (setCampo acc campo (trimStr v1)) campo) =
      true := by
    rw [hset]
    simp [truthy, hne1]
  rw [scanTier1_store (setCampo acc campo (trimStr v1)) l2 v2 resto campo
    h2 hm2 hv2]
  rw [if_pos htr]
  rw [scanTier1_persist _ false resto campo htr, hset]

theorem scanTier1_primeiro_escritor_vence_ok :
    getCampo (scanTier1 carroVazio false
        ["Marca", "RENAULT", "Marca:", "FIAT"]) Campo.marca =
      some (trimStr "RENAULT") :=
  (scanTier1_primeiro_escritor_vence carroVazio "Marca" "RENAULT" "Marca:"
    "FIAT" [] Campo.marca (by decide) (by decide) (by decide) (by decide)
    (by decide) (by decide) (by decide)).1

/-- C9: validarPlaca accepts exactly the texts whose separator-stripped
uppercased form matches the legacy shape (3 letters, 4 digits) or the
current shape (3 letters, digit, alphanumeric, 2 digits); the four
sample inputs behave as the claim states. -/
theorem validarPlaca_formatos (t : String) :
    validarPlaca t =
      (placaLegada (limparPlaca t) || placaAtual (limparPlaca t)) ∧
    validarPlaca "ABC1234" = true ∧ validarPlaca "abc-1234" = true ∧
    validarPlaca "ABC12D3" = false ∧ validarPlaca "AB123" = false :=
  ⟨(matchPlaca_or (limparPlaca t)).symm, by decide, by decide, by decide,
   by decide⟩

/-- C10: each JSON adapter yields a record only when a truthy
brand-equivalent key resolves — `MARCA` for the gateway; `marca` then
`MARCA`, probed in that order, for apiplacas — and with no such key,
or no body at all, the adapter returns null without faulting. -/
theorem adaptadores_json_exigem_marca (status : Nat) (json : Payload) :
    (truthy (json "MARCA") = false →
      consultarGateway (Except.ok (status, some json)) = none) ∧
    consultarGateway (Except.ok (status, none)) = none ∧
    (∀ c, consultarGateway (Except.ok (status, some json)) = some c →
      truthy (json "MARCA") = true) ∧
    (truthy (json "marca") = false → truthy (json "MARCA") = false →
      consultarApiPlacas (Except.ok (some json)) = none) ∧
    consultarApiPlacas (Except.ok none) = none ∧
    (∀ c, consultarApiPlacas (Except.ok (some json)) = some c →
      c.marca = (if truthy (json "marca") = true then json "marca"
                 else json "MARCA")) := by
  refine ⟨?_, rfl, ?_, ?_, rfl, ?_⟩
  · intro h
    simp [consultarGateway, h]
  · intro c hc
    by_cases hmm : truthy (json "MARCA") = true
    · exact hmm
    · exfalso
      have hf : truthy (json "MARCA") = false := by
        cases hx : truthy (json "MARCA") with
        | false => rfl
        | true => exact absurd hx hmm
      have hnone : consultarGateway (Except.ok (status, some json)) = none := by
        simp [consultarGateway, hf]
      rw [hnone] at hc
      exact Option.noConfusion hc
  · intro ha hA
    simp [consultarApiPlacas, jsOr, ha, hA]
  · intro c hc
    simp only [consultarApiPlacas] at hc
    by_cases hg : truthy (jsOr (json "marca") (json "MARCA")) = true
    · rw [if_pos hg] at hc
      rw [← Option.some.inj hc]
      show toField (jsOr (json "marca") (json "MARCA")) = _
      rw [toField, if_pos hg, jsOr]
    · rw [if_neg hg] at hc
      exact absurd hc (fun hx => Option.noConfusion hx)

theorem adaptadores_json_exigem_marca_ok :
    truthy (payloadVazio "MARCA") = false ∧
    consultarGateway (Except.ok (200, some payloadVazio)) = none ∧
    consultarApiPlacas (Except.ok (some payloadVazio)) = none := by
  have h := adaptadores_json_exigem_marca 200 payloadVazio
  exact ⟨by decide, h.1 (by decide), h.2.2.2.1 (by decide) (by decide)⟩

end PlacaApi
